import Mathlib

/-!
Verification of the request-construction contract of the `coingecko-rs`
client library (`src/client.rs`).

The library builds HTTP GET request URLs from typed parameters and an
immutable client configuration `{ host, api_key }`.  All request
construction is pure string formatting, so it is embedded here directly:
each Rust `format!` call becomes Lean string concatenation, Rust's
`slice::join` becomes `joinSep`, Rust `i64` becomes `Int` (their decimal
renderings agree), Rust `bool` display becomes `toString : Bool → String`,
and the `chrono` date formatting used by the client (format specifiers
`%d`, `%m`, `%Y` only) is modelled by a small interpreter `formatDate`.

The operations of the client are enumerated by the inductive type `Op`;
`request` maps an operation to the `(endpoint, optional params)` pair it
passes to `CoinGeckoClient.get`, and `urlOf` composes that with
`get_url`, exactly as `CoinGeckoClient::get` does in the source.
-/

namespace Coingecko

/-- Zero-pad a natural number to at least two decimal digits, as chrono's
`%d` and `%m` specifiers do. -/
def pad2 (n : Nat) : String :=
  if n < 10 then "0" ++ toString n else toString n

/-- Zero-pad a natural number to at least four decimal digits, as chrono's
`%Y` specifier does for the years representable by a calendar date. -/
def pad4 (n : Nat) : String :=
  if n < 10 then "000" ++ toString n
  else if n < 100 then "00" ++ toString n
  else if n < 1000 then "0" ++ toString n
  else toString n

/-- Calendar date at day precision, embedding `chrono::NaiveDate` (year
restricted to the zero-padded four-digit range that `%Y` renders without
an explicit sign). -/
structure NaiveDate where
  year : Nat
  month : Nat
  day : Nat
deriving DecidableEq, Repr

/-- Interpreter for the chrono format strings used by the client, which
only ever contain the specifiers `%d` (zero-padded day), `%m` (zero-padded
month), `%Y` (zero-padded year) and literal characters.  Modelled from the
spec: chrono's `NaiveDate::format` is an external collaborator, out of
scope of the source; the spec documents the two patterns as rendering
`DD-MM-YYYY` and `YYYY-MM-DD`. -/
def formatDate (fmt : List Char) (d : NaiveDate) : String :=
  match fmt with
  | [] => ""
  | '%' :: 'd' :: rest => pad2 d.day ++ formatDate rest d
  | '%' :: 'm' :: rest => pad2 d.month ++ formatDate rest d
  | '%' :: 'Y' :: rest => pad4 d.year ++ formatDate rest d
  | c :: rest => String.singleton c ++ formatDate rest d

/-- Embedding of Rust's `slice::join` on strings: the separator is placed
between consecutive elements, and is absent for empty or singleton
slices. -/
def joinSep (sep : String) : List String → String
  | [] => ""
  | [x] => x
  | x :: y :: rest => x ++ sep ++ joinSep sep (y :: rest)

/-- Client configuration, from `struct CoinGeckoClient` in `client.rs`:
an immutable host plus an optional API key. -/
structure CoinGeckoClient where
  host : String
  api_key : Option String

/-- Embedding of `CoinGeckoClient::get_url`: combine host, endpoint and
the optional pre-encoded query string, appending the `x_cg_pro_api_key`
parameter when an API key is configured. -/
def get_url (c : CoinGeckoClient) (endpoint : String) (params : Option String) : String :=
  let ps : String :=
    match params, c.api_key with
    | some p, some k => p ++ "&x_cg_pro_api_key=" ++ k
    | some p, none => p
    | none, some k => "?x_cg_pro_api_key=" ++ k
    | none, none => ""
  c.host ++ endpoint ++ ps

/-- Market ordering options, as matched in `coins_markets`. -/
inductive MarketsOrder where
  | MarketCapDesc | MarketCapAsc | GeckoDesc | GeckoAsc
  | VolumeDesc | VolumeAsc | IdDesc | IdAsc
deriving DecidableEq, Repr

/-- Wire token for each `MarketsOrder` variant, from the `match` in
`coins_markets`. -/
def marketsOrderStr : MarketsOrder → String
  | .MarketCapDesc => "market_cap_desc"
  | .MarketCapAsc => "market_cap_asc"
  | .GeckoDesc => "gecko_desc"
  | .GeckoAsc => "gecko_asc"
  | .VolumeDesc => "volume_desc"
  | .VolumeAsc => "volume_asc"
  | .IdDesc => "id_desc"
  | .IdAsc => "id_asc"

/-- Ticker ordering options, as matched in `coin_tickers` and
`exchange_tickers`. -/
inductive TickersOrder where
  | TrustScoreAsc | TrustScoreDesc | VolumeDesc
deriving DecidableEq, Repr

/-- Wire token for each `TickersOrder` variant. -/
def tickersOrderStr : TickersOrder → String
  | .TrustScoreAsc => "trust_score_asc"
  | .TrustScoreDesc => "trust_score_desc"
  | .VolumeDesc => "volume_desc"

/-- Price-change window options, as matched in `coins_markets`. -/
inductive PriceChangePercentage where
  | OneHour | TwentyFourHours | SevenDays | FourteenDays
  | ThirtyDays | TwoHundredDays | OneYear
deriving DecidableEq, Repr

/-- Wire token for each `PriceChangePercentage` variant. -/
def priceChangePercentageStr : PriceChangePercentage → String
  | .OneHour => "1h"
  | .TwentyFourHours => "24h"
  | .SevenDays => "7d"
  | .FourteenDays => "14d"
  | .ThirtyDays => "30d"
  | .TwoHundredDays => "200d"
  | .OneYear => "1y"

/-- Ticker-inclusion options for the derivatives endpoints. -/
inductive DerivativesIncludeTickers where
  | All | Unexpired
deriving DecidableEq, Repr

/-- Wire token for the optional ticker-inclusion parameter; an absent
value defaults to `unexpired`, as in `derivatives` and
`derivatives_exchange`. -/
def derivativesIncludeTickersStr : Option DerivativesIncludeTickers → String
  | some .All => "all"
  | some .Unexpired => "unexpired"
  | none => "unexpired"

/-- Derivative-exchange ordering options, as matched in
`derivative_exchanges`. -/
inductive DerivativeExchangeOrder where
  | NameAsc | NameDesc | OpenInterestBtcAsc | OpenInterestBtcDesc
  | TradeVolume24hBtcAsc | TradeVolume24hBtcDesc
deriving DecidableEq, Repr

/-- Wire token for each `DerivativeExchangeOrder` variant. -/
def derivativeExchangeOrderStr : DerivativeExchangeOrder → String
  | .NameAsc => "name_asc"
  | .NameDesc => "name_desc"
  | .OpenInterestBtcAsc => "open_interest_btc_asc"
  | .OpenInterestBtcDesc => "open_interest_btc_desc"
  | .TradeVolume24hBtcAsc => "trade_volume_24h_btc_asc"
  | .TradeVolume24hBtcDesc => "trade_volume_24h_btc_desc"

/-- Day-count options for the OHLC endpoint, from `params::OhlcDays` as
matched in `coin_ohlc`. -/
inductive OhlcDays where
  | OneDay | SevenDays | FourteenDays | ThirtyDays
  | NinetyDays | OneHundredEightyDays | ThreeHundredSixtyFiveDays
deriving DecidableEq, Repr

/-- Literal day count for each `OhlcDays` variant, from the `match` in
`coin_ohlc` (the matched integers are Rust `i64` literals). -/
def ohlcDaysNum : OhlcDays → Int
  | .OneDay => 1
  | .SevenDays => 7
  | .FourteenDays => 14
  | .ThirtyDays => 30
  | .NinetyDays => 90
  | .OneHundredEightyDays => 180
  | .ThreeHundredSixtyFiveDays => 365

/-- Coin selector for the public-treasury endpoint. -/
inductive CompaniesCoinId where
  | Bitcoin | Ethereum
deriving DecidableEq, Repr

/-- Timestamp at second precision, embedding `chrono::NaiveDateTime`; the
client only ever calls `.timestamp()` on it, so it is carried directly as
the Unix epoch-seconds integer that call returns. -/
structure NaiveDateTime where
  timestamp : Int
deriving DecidableEq, Repr

/-- Query string built by `price`. -/
def priceParams (ids vs_currencies : List String)
    (include_market_cap include_24hr_vol include_24hr_change include_last_updated_at : Bool) :
    String :=
  "?ids=" ++ joinSep "%2C" ids ++ "&vs_currencies=" ++ joinSep "%2C" vs_currencies ++
    "&include_market_cap=" ++ toString include_market_cap ++
    "&include_24hr_vol=" ++ toString include_24hr_vol ++
    "&include_24hr_change=" ++ toString include_24hr_change ++
    "&include_last_updated_at=" ++ toString include_last_updated_at

/-- Query string built by `token_price`. -/
def tokenPriceParams (contract_addresses vs_currencies : List String)
    (include_market_cap include_24hr_vol include_24hr_change include_last_updated_at : Bool) :
    String :=
  "?contract_addresses=" ++ joinSep "%2C" contract_addresses ++
    "&vs_currencies=" ++ joinSep "%2C" vs_currencies ++
    "&include_market_cap=" ++ toString include_market_cap ++
    "&include_24hr_vol=" ++ toString include_24hr_vol ++
    "&include_24hr_change=" ++ toString include_24hr_change ++
    "&include_last_updated_at=" ++ toString include_last_updated_at

/-- Query string built by `coins_list`. -/
def coinsListParams (include_platform : Bool) : String :=
  "?include_platform=" ++ toString include_platform

/-- Query string built by `coins_markets`; an absent `category` contributes
the empty string, a present one the fragment `&category=<c>`. -/
def coinsMarketsParams (vs_currency : String) (ids : List String) (category : Option String)
    (order : MarketsOrder) (per_page page : Int) (sparkline : Bool)
    (price_change_percentage : List PriceChangePercentage) : String :=
  let categoryStr : String :=
    match category with
    | some c => "&category=" ++ c
    | none => ""
  "?vs_currency=" ++ vs_currency ++ "&ids=" ++ joinSep "%2C" ids ++ categoryStr ++
    "&order=" ++ marketsOrderStr order ++ "&per_page=" ++ toString per_page ++
    "&page=" ++ toString page ++ "&sparkline=" ++ toString sparkline ++
    "&price_change_percentage=" ++
    joinSep "%2C" (price_change_percentage.map priceChangePercentageStr)

/-- Query string built by `coin`. -/
def coinParams (localization tickers market_data community_data developer_data sparkline : Bool) :
    String :=
  "?localization=" ++ toString localization ++ "&tickers=" ++ toString tickers ++
    "&market_data=" ++ toString market_data ++ "&community_data=" ++ toString community_data ++
    "&developer_data=" ++ toString developer_data ++ "&sparkline=" ++ toString sparkline

/-- Query string built by `coin_tickers`, which matches on the optional
exchange-id list. -/
def coinTickersParams (exchange_ids : Option (List String)) (include_exchange_logo : Bool)
    (page : Int) (order : TickersOrder) (depth : Bool) : String :=
  match exchange_ids with
  | some e_ids =>
    "?exchange_ids=" ++ joinSep "%2C" e_ids ++
      "&include_exchange_logo=" ++ toString include_exchange_logo ++
      "&page=" ++ toString page ++ "&order=" ++ tickersOrderStr order ++
      "&depth=" ++ toString depth
  | none =>
    "?include_exchange_logo=" ++ toString include_exchange_logo ++
      "&page=" ++ toString page ++ "&order=" ++ tickersOrderStr order ++
      "&depth=" ++ toString depth

/-- Query string built by `coin_history`; the date is rendered with the
chrono pattern `%d-%m-%Y`. -/
def coinHistoryParams (date : NaiveDate) (localization : Bool) : String :=
  "?date=" ++ formatDate "%d-%m-%Y".data date ++ "&localization=" ++ toString localization

/-- Query string built by `coin_market_chart`, which matches on
`use_daily_interval`. -/
def coinMarketChartParams (vs_currency : String) (days : Int) (use_daily_interval : Bool) :
    String :=
  match use_daily_interval with
  | true => "?vs_currency=" ++ vs_currency ++ "&days=" ++ toString days
  | false => "?vs_currency=" ++ vs_currency ++ "&days=" ++ toString days ++ "&interval=daily"

/-- Query string built by `coin_market_chart_range`,
`contract_market_chart_range`: currency plus epoch-second bounds. -/
def marketChartRangeParams (vs_currency : String) (fromTs toTs : Int) : String :=
  "?vs_currency=" ++ vs_currency ++ "&from=" ++ toString fromTs ++ "&to=" ++ toString toTs

/-- Query string built by `coin_ohlc` after mapping the day-count
variant to its literal integer. -/
def coinOhlcParams (vs_currency : String) (days : OhlcDays) : String :=
  "?vs_currency=" ++ vs_currency ++ "&days=" ++ toString (ohlcDaysNum days)

/-- Query string built by `contract_market_chart`. -/
def contractMarketChartParams (vs_currency : String) (days : Int) : String :=
  "?vs_currency=" ++ vs_currency ++ "&days=" ++ toString days

/-- Query string of the paginated listing operations (`exchanges`,
`exchange_status_updates`, `finance_platforms`, `finance_products`,
`indexes`), which all format `?per_page=<n>&page=<n>`. -/
def perPageParams (per_page page : Int) : String :=
  "?per_page=" ++ toString per_page ++ "&page=" ++ toString page

/-- Query string built by `exchange_volume_chart`. -/
def volumeChartParams (days : Int) : String :=
  "?days=" ++ toString days

/-- Query string built by `exchange_tickers`, which matches on the
optional coin-id list. -/
def exchangeTickersParams (coin_ids : Option (List String)) (include_exchange_logo : Bool)
    (page : Int) (order : TickersOrder) (depth : Bool) : String :=
  match coin_ids with
  | some c_ids =>
    "?coin_ids=" ++ joinSep "%2C" c_ids ++
      "&include_exchange_logo=" ++ toString include_exchange_logo ++
      "&page=" ++ toString page ++ "&order=" ++ tickersOrderStr order ++
      "&depth=" ++ toString depth
  | none =>
    "?include_exchange_logo=" ++ toString include_exchange_logo ++
      "&page=" ++ toString page ++ "&order=" ++ tickersOrderStr order ++
      "&depth=" ++ toString depth

/-- Query string built by `derivatives` and `derivatives_exchange`. -/
def derivativesParams (include_tickers : Option DerivativesIncludeTickers) : String :=
  "?include_tickers=" ++ derivativesIncludeTickersStr include_tickers

/-- Query string built by `derivative_exchanges`. -/
def derivativeExchangesParams (order : DerivativeExchangeOrder) (per_page page : Int) : String :=
  "?order=" ++ derivativeExchangeOrderStr order ++ "&per_page=" ++ toString per_page ++
    "&page=" ++ toString page

/-- Fragment vector built by `status_updates`: the optional filters are
pushed only when present, then the two page numbers are pushed bare
(without a parameter name), exactly as in the source. -/
def statusUpdatesFrags (category project_type : Option String) (per_page page : Int) :
    List String :=
  (match category with
    | some c => ["category=" ++ c]
    | none => []) ++
  (match project_type with
    | some t => ["project_type=" ++ t]
    | none => []) ++
  [toString per_page, toString page]

/-- Query string built by `status_updates`: `?` followed by the
`&`-joined fragment vector. -/
def statusUpdatesParams (category project_type : Option String) (per_page page : Int) :
    String :=
  "?" ++ joinSep "&" (statusUpdatesFrags category project_type per_page page)

/-- Fragment vector built by `events` for its two optional filters. -/
def eventsFrags (country_code event_type : Option String) : List String :=
  (match country_code with
    | some c => ["country_code=" ++ c]
    | none => []) ++
  (match event_type with
    | some t => ["type=" ++ t]
    | none => [])

/-- Query string built by `events`: the joined optional filters followed
by page, upcoming flag and the two dates rendered with the chrono
pattern `%Y-%m-%d`. -/
def eventsParams (country_code event_type : Option String) (page : Int)
    (upcoming_events_only : Bool) (from_date to_date : NaiveDate) : String :=
  "?" ++ joinSep "&" (eventsFrags country_code event_type) ++
    "&page=" ++ toString page ++
    "&upcoming_events_only=" ++ toString upcoming_events_only ++
    "&from_date=" ++ formatDate "%Y-%m-%d".data from_date ++
    "&to_date=" ++ formatDate "%Y-%m-%d".data to_date

/-- Enumeration of the public operations of `CoinGeckoClient`, each
carrying the typed arguments of the corresponding method. -/
inductive Op where
  | ping
  | price (ids vs_currencies : List String)
      (include_market_cap include_24hr_vol include_24hr_change include_last_updated_at : Bool)
  | token_price (id : String) (contract_addresses vs_currencies : List String)
      (include_market_cap include_24hr_vol include_24hr_change include_last_updated_at : Bool)
  | supported_vs_currencies
  | coins_list (include_platform : Bool)
  | coins_markets (vs_currency : String) (ids : List String) (category : Option String)
      (order : MarketsOrder) (per_page page : Int) (sparkline : Bool)
      (price_change_percentage : List PriceChangePercentage)
  | coin (id : String)
      (localization tickers market_data community_data developer_data sparkline : Bool)
  | coin_tickers (id : String) (exchange_ids : Option (List String))
      (include_exchange_logo : Bool) (page : Int) (order : TickersOrder) (depth : Bool)
  | coin_history (id : String) (date : NaiveDate) (localization : Bool)
  | coin_market_chart (id vs_currency : String) (days : Int) (use_daily_interval : Bool)
  | coin_market_chart_range (id vs_currency : String) (fromTime toTime : NaiveDateTime)
  | coin_ohlc (id vs_currency : String) (days : OhlcDays)
  | contract (id contract_address : String)
  | contract_market_chart (id contract_address vs_currency : String) (days : Int)
  | contract_market_chart_range (id contract_address vs_currency : String)
      (fromTime toTime : NaiveDateTime)
  | asset_platforms
  | categories_list
  | categories
  | exchanges (per_page page : Int)
  | exchanges_list
  | exchange (id : String)
  | exchange_tickers (id : String) (coin_ids : Option (List String))
      (include_exchange_logo : Bool) (page : Int) (order : TickersOrder) (depth : Bool)
  | exchange_status_updates (id : String) (per_page page : Int)
  | exchange_volume_chart (id : String) (days : Int)
  | finance_platforms (per_page page : Int)
  | finance_products (per_page page : Int)
  | indexes (per_page page : Int)
  | indexes_market_id (market_id id : String)
  | indexes_list
  | derivatives (include_tickers : Option DerivativesIncludeTickers)
  | derivative_exchanges (order : DerivativeExchangeOrder) (per_page page : Int)
  | derivatives_exchange (id : String) (include_tickers : Option DerivativesIncludeTickers)
  | derivative_exchanges_list
  | status_updates (category project_type : Option String) (per_page page : Int)
  | events (country_code event_type : Option String) (page : Int)
      (upcoming_events_only : Bool) (from_date to_date : NaiveDate)
  | event_countries
  | event_types
  | exchange_rates
  | trending
  | global
  | global_defi
  | companies (coin_id : CompaniesCoinId)

/-- Endpoint path and optional query string each operation passes to
`CoinGeckoClient::get`, transcribed method by method from the source. -/
def request : Op → String × Option String
  | .ping => ("/ping", none)
  | .price ids vs m v c l => ("/simple/price", some (priceParams ids vs m v c l))
  | .token_price id addrs vs m v c l =>
    ("/simple/token_price/" ++ id, some (tokenPriceParams addrs vs m v c l))
  | .supported_vs_currencies => ("/simple/supported_vs_currencies", none)
  | .coins_list b => ("/coins/list", some (coinsListParams b))
  | .coins_markets vs ids cat order pp pg sp pcp =>
    ("/coins/markets", some (coinsMarketsParams vs ids cat order pp pg sp pcp))
  | .coin id l t m c d s => ("/coins/" ++ id, some (coinParams l t m c d s))
  | .coin_tickers id e_ids logo page order depth =>
    ("/coins/" ++ id ++ "/tickers", some (coinTickersParams e_ids logo page order depth))
  | .coin_history id date l =>
    ("/coins/" ++ id ++ "/history", some (coinHistoryParams date l))
  | .coin_market_chart id vs days u =>
    ("/coins/" ++ id ++ "/market_chart", some (coinMarketChartParams vs days u))
  | .coin_market_chart_range id vs f t =>
    ("/coins/" ++ id ++ "/market_chart/range",
      some (marketChartRangeParams vs f.timestamp t.timestamp))
  | .coin_ohlc id vs days => ("/coins/" ++ id ++ "/ohlc", some (coinOhlcParams vs days))
  | .contract id addr => ("/coins/" ++ id ++ "/contract/" ++ addr, none)
  | .contract_market_chart id addr vs days =>
    ("/coins/" ++ id ++ "/contract/" ++ addr ++ "/market_chart/",
      some (contractMarketChartParams vs days))
  | .contract_market_chart_range id addr vs f t =>
    ("/coins/" ++ id ++ "/contract/" ++ addr ++ "/market_chart/range",
      some (marketChartRangeParams vs f.timestamp t.timestamp))
  | .asset_platforms => ("/asset_platforms", none)
  | .categories_list => ("/coins/categories/list", none)
  | .categories => ("/coins/categories", none)
  | .exchanges pp pg => ("/exchanges", some (perPageParams pp pg))
  | .exchanges_list => ("/exchanges/list", none)
  | .exchange id => ("/exchanges/" ++ id, none)
  | .exchange_tickers id c_ids logo page order depth =>
    ("/exchanges/" ++ id ++ "/tickers",
      some (exchangeTickersParams c_ids logo page order depth))
  | .exchange_status_updates id pp pg =>
    ("/exchanges/" ++ id ++ "/status_updates", some (perPageParams pp pg))
  | .exchange_volume_chart id days =>
    ("/exchanges/" ++ id ++ "/volume_chart", some (volumeChartParams days))
  | .finance_platforms pp pg => ("/finance_platforms", some (perPageParams pp pg))
  | .finance_products pp pg => ("/finance_products", some (perPageParams pp pg))
  | .indexes pp pg => ("/indexes", some (perPageParams pp pg))
  | .indexes_market_id mid id => ("/indexes/" ++ mid ++ "/" ++ id, none)
  | .indexes_list => ("/indexes/list", none)
  | .derivatives it => ("/derivatives", some (derivativesParams it))
  | .derivative_exchanges order pp pg =>
    ("/derivatives/exchanges", some (derivativeExchangesParams order pp pg))
  | .derivatives_exchange id it =>
    ("/derivatives/exchanges/" ++ id, some (derivativesParams it))
  | .derivative_exchanges_list => ("/derivatives/exchanges/list", none)
  | .status_updates cat pt pp pg =>
    ("/status_updates", some (statusUpdatesParams cat pt pp pg))
  | .events cc et page up f t => ("/events", some (eventsParams cc et page up f t))
  | .event_countries => ("/events/types", none)
  | .event_types => ("/events/types", none)
  | .exchange_rates => ("/exchange_rates", none)
  | .trending => ("/search/trending", none)
  | .global => ("/global", none)
  | .global_defi => ("/global/decentralized_finance_defi", none)
  | .companies .Bitcoin => ("/companies/public_treasury/bitcoin", none)
  | .companies .Ethereum => ("/companies/public_treasury/ethereum", none)

/-- URL against which an operation issues its GET request: the
composition of `request` with `get_url`, as in `CoinGeckoClient::get`. -/
def urlOf (c : CoinGeckoClient) (op : Op) : String :=
  get_url c (request op).1 (request op).2

/-- Number of positions of `l` at which the pattern `p` occurs as a
contiguous substring (occurrences may overlap). -/
def countOccs (p : List Char) : List Char → Nat
  | [] => 0
  | c :: rest => (if p <+: c :: rest then 1 else 0) + countOccs p rest

/-- Splitting an infix occurrence across an append: the pattern occurs
inside the left part, inside the right part, or straddles the boundary
with a nonempty piece on each side. -/
theorem infix_split {p l₁ l₂ : List Char} (h : p <:+: l₁ ++ l₂) :
    p <:+: l₁ ∨ p <:+: l₂ ∨
      ∃ i, 0 < i ∧ i < p.length ∧ p.take i <:+ l₁ ∧ p.drop i <+: l₂ := by
  obtain ⟨s, t, hst⟩ := h
  rw [List.append_assoc] at hst
  rcases List.append_eq_append_iff.mp hst with ⟨a, ha1, ha2⟩ | ⟨a, ha1, ha2⟩
  · rcases List.append_eq_append_iff.mp ha2 with ⟨b, hb1, hb2⟩ | ⟨b, hb1, hb2⟩
    · left
      exact ⟨s, b, by rw [ha1, hb1, ← List.append_assoc]⟩
    · by_cases hae : a = []
      · right; left
        subst hae
        simp only [List.nil_append] at hb1
        exact ⟨[], t, by simp [hb2, hb1]⟩
      · by_cases hbe : b = []
        · left
          subst hbe
          rw [List.append_nil] at hb1
          exact ⟨s, [], by rw [ha1, ← hb1, List.append_nil]⟩
        · right; right
          refine ⟨a.length, List.length_pos.mpr hae, ?_, ?_, ?_⟩
          · rw [hb1, List.length_append]
            have := List.length_pos.mpr hbe
            omega
          · rw [hb1, List.take_left]
            exact ⟨s, ha1.symm⟩
          · rw [hb1, List.drop_left]
            exact ⟨t, hb2.symm⟩
  · right; left
    exact ⟨a, t, by rw [ha2, List.append_assoc]⟩

/-- Occurrences cannot enter an appended tail through a literal head `L`
when no proper, nonempty piece of the pattern is a suffix of `L`. -/
theorem step_lit {p L R : List Char} (h1 : ¬ p <:+: L)
    (h2 : ∀ i < p.length, 0 < i → ¬ p.take i <:+ L)
    (h3 : ¬ p <:+: R) : ¬ p <:+: L ++ R := by
  intro h
  rcases infix_split h with h | h | ⟨i, hi0, hil, hs, _⟩
  · exact h1 h
  · exact h3 h
  · exact h2 i hil hi0 hs

/-- Occurrences cannot straddle the boundary after an arbitrary piece `t`
when the remainder `R` starts with a character `c` that no proper,
nonempty tail of the pattern starts with. -/
theorem step_abs {p t R : List Char} {c : Char} (hR : R.head? = some c)
    (h1 : ¬ p <:+: t)
    (h2 : ∀ i < p.length, 0 < i → (p.drop i).head? ≠ some c)
    (h3 : ¬ p <:+: R) : ¬ p <:+: t ++ R := by
  intro h
  rcases infix_split h with h | h | ⟨i, hi0, hil, _, hp⟩
  · exact h1 h
  · exact h3 h
  · obtain ⟨u, hu⟩ := hp
    cases hd : p.drop i with
    | nil =>
      rw [List.drop_eq_nil_iff] at hd
      omega
    | cons x xs =>
      apply h2 i hil hi0
      rw [hd]
      rw [← hu, hd] at hR
      simpa using hR

/-- Unfolding lemma for `countOccs` at a position where the pattern does
not occur. -/
theorem countOccs_cons_of_not {p l : List Char} {c : Char} (h : ¬ p <+: c :: l) :
    countOccs p (c :: l) = countOccs p l := by
  simp [countOccs, h]

/-- A pattern starting with `%` has no occurrence beginning inside a
percent-free block `x`. -/
theorem countOccs_skip {q x m : List Char} (hx : ∀ c ∈ x, c ≠ '%') :
    countOccs ('%' :: q) (x ++ m) = countOccs ('%' :: q) m := by
  induction x with
  | nil => simp
  | cons c x ih =>
    have hc : c ≠ '%' := hx c (List.mem_cons_self ..)
    rw [List.cons_append, countOccs_cons_of_not, ih fun a ha => hx a (List.mem_cons_of_mem _ ha)]
    intro hp
    exact hc (List.cons_prefix_cons.mp hp).1.symm

/-- A block starting with the separator `%2C` contributes exactly one
occurrence of it. -/
theorem countOccs_sep (m : List Char) :
    countOccs ['%', '2', 'C'] (['%', '2', 'C'] ++ m) = 1 + countOccs ['%', '2', 'C'] m := by
  have h0 : (['%', '2', 'C'] : List Char) <+: '%' :: '2' :: 'C' :: m := ⟨m, rfl⟩
  simp [countOccs, List.cons_prefix_cons, h0]

/-- Rendering of the single-date pattern `%d-%m-%Y`: zero-padded day,
month and four-digit year, in that order. -/
theorem formatDate_dmy (d : NaiveDate) :
    formatDate "%d-%m-%Y".data d = pad2 d.day ++ "-" ++ pad2 d.month ++ "-" ++ pad4 d.year := by
  show formatDate ['%', 'd', '-', '%', 'm', '-', '%', 'Y'] d = _
  have hs : String.singleton '-' = "-" := rfl
  simp [formatDate, hs, String.append_assoc]

/-- Rendering of the date-range pattern `%Y-%m-%d`: four-digit year, then
zero-padded month and day. -/
theorem formatDate_ymd (d : NaiveDate) :
    formatDate "%Y-%m-%d".data d = pad4 d.year ++ "-" ++ pad2 d.month ++ "-" ++ pad2 d.day := by
  show formatDate ['%', 'Y', '-', '%', 'm', '-', '%', 'd'] d = _
  have hs : String.singleton '-' = "-" := rfl
  simp [formatDate, hs, String.append_assoc]

/-- C1: `get_url` concatenates host, endpoint and a query segment that is
the given query string with `&x_cg_pro_api_key=<key>` appended when both
are present, the query string unchanged when the key is absent, exactly
`?x_cg_pro_api_key=<key>` when only the key is present, and empty when
neither is given; the key parameter is appended exactly once. -/
theorem claim_C1 (host endpoint p k : String) :
    get_url ⟨host, some k⟩ endpoint (some p) =
        host ++ endpoint ++ (p ++ "&x_cg_pro_api_key=" ++ k) ∧
      get_url ⟨host, none⟩ endpoint (some p) = host ++ endpoint ++ p ∧
      get_url ⟨host, some k⟩ endpoint none =
        host ++ endpoint ++ ("?x_cg_pro_api_key=" ++ k) ∧
      get_url ⟨host, none⟩ endpoint none = host ++ endpoint ++ "" := by
  refine ⟨rfl, rfl, rfl, ?_⟩
  simp [get_url]

/-- C2: against a keyless client with host `h`, the `price` call of the
end-to-end scenario issues its GET request at exactly the documented
URL. -/
theorem claim_C2 (h : String) :
    urlOf ⟨h, none⟩ (.price ["bitcoin"] ["usd"] true false false false) =
      h ++ "/simple/price?ids=bitcoin&vs_currencies=usd&include_market_cap=true&include_24hr_vol=false&include_24hr_change=false&include_last_updated_at=false" := by
  have h1 : urlOf ⟨h, none⟩ (.price ["bitcoin"] ["usd"] true false false false) =
      h ++ ("/simple/price" ++ priceParams ["bitcoin"] ["usd"] true false false false) := by
    simp [urlOf, request, get_url, String.append_assoc]
  rw [h1,
    (by decide : "/simple/price" ++ priceParams ["bitcoin"] ["usd"] true false false false =
      "/simple/price?ids=bitcoin&vs_currencies=usd&include_market_cap=true&include_24hr_vol=false&include_24hr_change=false&include_last_updated_at=false")]

/-- C3: for every client configuration, `event_countries` and
`event_types` issue their requests against identical URLs, both using the
remote path `/events/types` with no query string. -/
theorem claim_C3 (c : CoinGeckoClient) :
    urlOf c .event_countries = urlOf c .event_types ∧
      request .event_countries = ("/events/types", none) ∧
      request .event_types = ("/events/types", none) :=
  ⟨rfl, rfl, rfl⟩

/-- C6: `coin_history` renders its date parameter in `DD-MM-YYYY` order
while `events` renders `from_date` and `to_date` in `YYYY-MM-DD` order,
each field zero-padded; the rendering is a pure function of the date, so
the same calendar date always produces the same string. -/
theorem claim_C6 (d d2 : NaiveDate) (loc : Bool) (cc et : Option String)
    (page : Int) (upc : Bool) :
    coinHistoryParams d loc =
        "?date=" ++ (pad2 d.day ++ "-" ++ pad2 d.month ++ "-" ++ pad4 d.year) ++
          "&localization=" ++ toString loc ∧
      eventsParams cc et page upc d d2 =
        "?" ++ joinSep "&" (eventsFrags cc et) ++ "&page=" ++ toString page ++
          "&upcoming_events_only=" ++ toString upc ++
          "&from_date=" ++ (pad4 d.year ++ "-" ++ pad2 d.month ++ "-" ++ pad2 d.day) ++
          "&to_date=" ++ (pad4 d2.year ++ "-" ++ pad2 d2.month ++ "-" ++ pad2 d2.day) := by
  constructor
  · rw [coinHistoryParams, formatDate_dmy]
  · rw [eventsParams, formatDate_ymd, formatDate_ymd]

/-- C5: for every operation of the client, a client holding an API key
issues its request at a URL that carries the key as the final query
parameter `x_cg_pro_api_key=<key>`. -/
theorem claim_C5 (host k : String) (op : Op) :
    ∃ s, urlOf ⟨host, some k⟩ op = s ++ "?x_cg_pro_api_key=" ++ k ∨
      urlOf ⟨host, some k⟩ op = s ++ "&x_cg_pro_api_key=" ++ k := by
  cases hp : (request op).2 with
  | none =>
    refine ⟨host ++ (request op).1, Or.inl ?_⟩
    simp [urlOf, get_url, hp, String.append_assoc]
  | some p =>
    refine ⟨host ++ (request op).1 ++ p, Or.inr ?_⟩
    simp [urlOf, get_url, hp, String.append_assoc]

/-- Characters of a joined list come from the separator or from one of
the joined elements. -/
theorem mem_joinSep_data {c : Char} (sep : String) (l : List String)
    (h : c ∈ (joinSep sep l).data) : c ∈ sep.data ∨ ∃ x ∈ l, c ∈ x.data := by
  induction l with
  | nil => simp [joinSep] at h
  | cons x rest ih =>
    cases rest with
    | nil => exact Or.inr ⟨x, by simp, by simpa [joinSep] using h⟩
    | cons y rest2 =>
      rw [joinSep, String.data_append, String.data_append] at h
      rcases List.mem_append.mp h with h1 | h2
      · rcases List.mem_append.mp h1 with hxc | hsc
        · exact Or.inr ⟨x, by simp, hxc⟩
        · exact Or.inl hsc
      · rcases ih h2 with hs | ⟨z, hz, hcz⟩
        · exact Or.inl hs
        · exact Or.inr ⟨z, List.mem_cons_of_mem _ hz, hcz⟩

/-- A pattern containing a character that a list lacks cannot occur in
that list. -/
theorem notInfix_of_missing (ch : Char) {p l : List Char} (hp : ch ∈ p) (hl : ch ∉ l) :
    ¬ p <:+: l :=
  fun h => hl (h.sublist.subset hp)

/-- Counting and comma-freedom for the `%2C` join of percent-free,
comma-free elements: exactly one separator occurrence per adjacent pair,
and no raw comma anywhere. -/
theorem joinSep_sep_count :
    ∀ ids : List String, ids ≠ [] →
      (∀ s ∈ ids, ∀ c ∈ s.data, c ≠ '%' ∧ c ≠ ',') →
      countOccs "%2C".data (joinSep "%2C" ids).data = ids.length - 1 ∧
        ∀ c ∈ (joinSep "%2C" ids).data, c ≠ ',' := by
  intro ids
  induction ids with
  | nil => exact fun hne _ => absurd rfl hne
  | cons x rest ih =>
    intro _ hok
    have hx : ∀ c ∈ x.data, c ≠ '%' := fun c hc => (hok x (by simp) c hc).1
    cases rest with
    | nil =>
      constructor
      · show countOccs ['%', '2', 'C'] (joinSep "%2C" [x]).data = [x].length - 1
        have h := @countOccs_skip ['2', 'C'] x.data [] hx
        rw [List.append_nil] at h
        simpa [joinSep, countOccs] using h
      · intro c hc
        exact (hok x (by simp) c (by simpa [joinSep] using hc)).2
    | cons y rest2 =>
      have ihh := ih (by simp) fun s hs c hc => hok s (List.mem_cons_of_mem _ hs) c hc
      constructor
      · show countOccs ['%', '2', 'C'] (joinSep "%2C" (x :: y :: rest2)).data = _
        have ihc : countOccs ['%', '2', 'C'] (joinSep "%2C" (y :: rest2)).data =
            (y :: rest2).length - 1 := ihh.1
        rw [joinSep, String.data_append, String.data_append, List.append_assoc,
          show ("%2C" : String).data = ['%', '2', 'C'] from rfl,
          @countOccs_skip ['2', 'C'] x.data _ hx, countOccs_sep, ihc]
        simp only [List.length_cons]
        omega
      · intro c hc
        rw [joinSep, String.data_append, String.data_append] at hc
        rcases List.mem_append.mp hc with h1 | h2
        · rcases List.mem_append.mp h1 with hxc | hsc
          · exact (hok x (by simp) c hxc).2
          · have hsc2 : c ∈ ['%', '2', 'C'] := hsc
            have : c = '%' ∨ c = '2' ∨ c = 'C' := by simpa using hsc2
            rcases this with rfl | rfl | rfl <;> decide
        · exact ihh.2 c h2

/-- C4 counterexample: the claim as stated fails for caller-supplied
identifiers that already contain a raw comma or the text `%2C` — the
client performs no escaping, so the comma reaches the query string of
`price` unchanged, and a `%2C` inside a single identifier yields one
separator occurrence instead of zero. -/
theorem claim_C4_cex :
    ',' ∈ (priceParams ["a,b"] ["usd"] true false false false).data ∧
      countOccs "%2C".data (joinSep "%2C" ["a%2Cb"]).data = 1 := by
  constructor <;> decide

/-- C4 (amended): for identifier lists whose elements are free of `%` and
of raw commas, the `%2C`-joined fragment contains exactly `n-1` separator
occurrences and no raw comma, and `price` places exactly this fragment in
its query string. -/
theorem claim_C4 (ids vs : List String) (m v ch l : Bool) (hne : ids ≠ [])
    (hok : ∀ s ∈ ids, ∀ c ∈ s.data, c ≠ '%' ∧ c ≠ ',') :
    countOccs "%2C".data (joinSep "%2C" ids).data = ids.length - 1 ∧
      (∀ c ∈ (joinSep "%2C" ids).data, c ≠ ',') ∧
      priceParams ids vs m v ch l =
        "?ids=" ++ joinSep "%2C" ids ++ "&vs_currencies=" ++ joinSep "%2C" vs ++
          "&include_market_cap=" ++ toString m ++ "&include_24hr_vol=" ++ toString v ++
          "&include_24hr_change=" ++ toString ch ++ "&include_last_updated_at=" ++ toString l :=
  ⟨(joinSep_sep_count ids hne hok).1, (joinSep_sep_count ids hne hok).2, rfl⟩

/-- C4 witness: the amended statement evaluated on the concrete call of
the library's own example, `price(["bitcoin", "ethereum"], ["usd"], ...)`. -/
theorem claim_C4_witness :
    countOccs "%2C".data (joinSep "%2C" ["bitcoin", "ethereum"]).data = 1 ∧
      (∀ c ∈ (joinSep "%2C" ["bitcoin", "ethereum"]).data, c ≠ ',') ∧
      priceParams ["bitcoin", "ethereum"] ["usd"] true true true true =
        "?ids=" ++ joinSep "%2C" ["bitcoin", "ethereum"] ++
          "&vs_currencies=" ++ joinSep "%2C" ["usd"] ++
          "&include_market_cap=" ++ toString true ++ "&include_24hr_vol=" ++ toString true ++
          "&include_24hr_change=" ++ toString true ++ "&include_last_updated_at=" ++
          toString true :=
  claim_C4 ["bitcoin", "ethereum"] ["usd"] true true true true (by decide) (by decide)

/-- C7: the OHLC day-count enumeration maps every variant to one of the
literal integers 1, 7, 14, 30, 90, 180, 365 by a fixed pure function, and
the end-to-end scenario `coin_ohlc("bitcoin", "usd", SevenDays)` places
`days=7` in the query string. -/
theorem claim_C7 :
    (∀ v : OhlcDays, ohlcDaysNum v ∈ ([1, 7, 14, 30, 90, 180, 365] : List Int)) ∧
      request (.coin_ohlc "bitcoin" "usd" .SevenDays) =
        ("/coins/bitcoin/ohlc", some "?vs_currency=usd&days=7") := by
  constructor
  · intro v
    cases v <;> decide
  · decide

/-- C9 counterexample: the claim as stated fails under fragment
injection — a `vs_currency` value that itself contains the text
`&interval=daily` puts that fragment into the query string even though
`use_daily_interval` is `true`. -/
theorem claim_C9_cex :
    "&interval=daily".data <:+: (coinMarketChartParams "usd&interval=daily" 1 true).data := by
  decide

/-- C9 (amended): provided `vs_currency` and the rendered day count do
not themselves contain the text `&interval=daily`, `coin_market_chart`
puts `&interval=daily` into its query string exactly when
`use_daily_interval` is `false`, and omits the interval parameter
entirely when it is `true` — the boolean's effect is the reverse of its
name. -/
theorem claim_C9 (id vs : String) (days : Int) (b : Bool)
    (h1 : ¬ "&interval=daily".data <:+: vs.data)
    (h2 : ¬ "&interval=daily".data <:+: (toString days).data) :
    request (.coin_market_chart id vs days b) =
        ("/coins/" ++ id ++ "/market_chart", some (coinMarketChartParams vs days b)) ∧
      coinMarketChartParams vs days true = "?vs_currency=" ++ vs ++ "&days=" ++ toString days ∧
      coinMarketChartParams vs days false =
        "?vs_currency=" ++ vs ++ "&days=" ++ toString days ++ "&interval=daily" ∧
      ("&interval=daily".data <:+: (coinMarketChartParams vs days b).data ↔ b = false) := by
  refine ⟨rfl, rfl, rfl, ?_⟩
  cases b with
  | false =>
    refine iff_of_true ?_ rfl
    refine ⟨("?vs_currency=" ++ vs ++ "&days=" ++ toString days).data, [], ?_⟩
    simp [coinMarketChartParams, String.data_append, List.append_assoc]
  | true =>
    refine iff_of_false ?_ (by simp)
    simp only [coinMarketChartParams, String.data_append, List.append_assoc]
    refine step_lit (by decide) (by decide) ?_
    refine step_abs rfl h1 (by decide) ?_
    exact step_lit (by decide) (by decide) h2

/-- C9 witness: the amended statement evaluated at `vs_currency = "usd"`,
`days = 1` for both values of the flag. -/
theorem claim_C9_witness :
    ("&interval=daily".data <:+: (coinMarketChartParams "usd" 1 false).data) ∧
      ¬ "&interval=daily".data <:+: (coinMarketChartParams "usd" 1 true).data := by
  constructor
  · exact (claim_C9 "bitcoin" "usd" 1 false (by decide) (by decide)).2.2.2.mpr rfl
  · intro hinf
    exact Bool.noConfusion ((claim_C9 "bitcoin" "usd" 1 true (by decide) (by decide)).2.2.2.mp hinf)

/-- C10 counterexample: the claim as stated fails under fragment
injection — a `category` filter value containing the text `page=` puts
that fragment into the query string. -/
theorem claim_C10_cex :
    "page=".data <:+: (statusUpdatesParams (some "x&page=2") none 10 1).data := by
  decide

/-- C10 (amended): `status_updates` renders `per_page` and `page` as bare
decimal numbers without their parameter names — with both filters present
the query string is `?category=<c>&project_type=<t>&<per_page>&<page>` —
and, provided the filter values and rendered numbers do not themselves
contain the text `page=`, the fragments `per_page=` and `page=` occur
nowhere in it. -/
theorem claim_C10 (c t : String) (pp pg : Int) :
    statusUpdatesParams (some c) (some t) pp pg =
        "?" ++ ("category=" ++ c) ++ "&" ++ ("project_type=" ++ t) ++ "&" ++ toString pp ++
          "&" ++ toString pg ∧
      (¬ "page=".data <:+: c.data → ¬ "page=".data <:+: t.data →
        ¬ "page=".data <:+: (toString pp).data → ¬ "page=".data <:+: (toString pg).data →
        ¬ "per_page=".data <:+: (statusUpdatesParams (some c) (some t) pp pg).data ∧
          ¬ "page=".data <:+: (statusUpdatesParams (some c) (some t) pp pg).data) := by
  constructor
  · simp [statusUpdatesParams, statusUpdatesFrags, joinSep, String.append_assoc]
  · intro hc ht hpp hpg
    have key : ¬ "page=".data <:+: (statusUpdatesParams (some c) (some t) pp pg).data := by
      simp only [statusUpdatesParams, statusUpdatesFrags, joinSep, String.data_append,
        List.append_assoc]
      refine step_lit (by decide) (by decide) ?_
      refine step_lit (by decide) (by decide) ?_
      refine step_abs rfl hc (by decide) ?_
      refine step_lit (by decide) (by decide) ?_
      refine step_lit (by decide) (by decide) ?_
      refine step_abs rfl ht (by decide) ?_
      refine step_lit (by decide) (by decide) ?_
      refine step_abs rfl hpp (by decide) ?_
      refine step_lit (by decide) (by decide) ?_
      exact hpg
    exact ⟨fun h => key ((by decide : "page=".data <:+: "per_page=".data).trans h), key⟩

/-- C10 witness: the amended statement evaluated on the concrete call of
the library's own example, `status_updates(Some("general"), Some("coin"),
10, 1)`. -/
theorem claim_C10_witness :
    statusUpdatesParams (some "general") (some "coin") 10 1 =
        "?" ++ ("category=" ++ "general") ++ "&" ++ ("project_type=" ++ "coin") ++ "&" ++
          toString (10 : Int) ++ "&" ++ toString (1 : Int) ∧
      ¬ "per_page=".data <:+: (statusUpdatesParams (some "general") (some "coin") 10 1).data ∧
      ¬ "page=".data <:+: (statusUpdatesParams (some "general") (some "coin") 10 1).data :=
  ⟨(claim_C10 "general" "coin" 10 1).1,
    (claim_C10 "general" "coin" 10 1).2 (by decide) (by decide) (by decide) (by decide)⟩

/-- Price-change tokens and their separator contain no letter `a`, hence
no `category=` fragment. -/
theorem pcp_no_category (l : List PriceChangePercentage) :
    ¬ "category=".data <:+: (joinSep "%2C" (l.map priceChangePercentageStr)).data := by
  apply notInfix_of_missing 'a' (by decide)
  intro hmem
  rcases mem_joinSep_data _ _ hmem with h | ⟨x, hx, hcx⟩
  · exact absurd h (by decide)
  · obtain ⟨e, _, rfl⟩ := List.mem_map.mp hx
    cases e <;> exact absurd hcx (by decide)

/-- Rendered market orderings contain no `category=` fragment. -/
theorem order_no_category (o : MarketsOrder) :
    ¬ "category=".data <:+: (marketsOrderStr o).data := by
  cases o <;> decide

/-- C8 counterexample: the claim as stated fails under fragment
injection — with `category` omitted, a `vs_currency` value containing the
text `category=` still puts that fragment into the `coins_markets` query
string. -/
theorem claim_C8_cex :
    "category=".data <:+:
      (coinsMarketsParams "usd&category=x" [] none .MarketCapDesc 1 0 true []).data := by
  decide

/-- C8 (amended): when an optional parameter is omitted, its key occurs
nowhere in the resulting query string — no `category=` (for
`coins_markets` and `status_updates`), `project_type=`, `country_code=`
or `type=` fragment, and in particular no `<key>=None` text — provided
the caller-supplied values of the remaining parameters do not themselves
contain that key fragment. -/
theorem claim_C8
    (vs : String) (ids : List String) (ordr : MarketsOrder) (ppA pgA : Int) (sp : Bool)
    (pcp : List PriceChangePercentage)
    (ptB : Option String) (ppB pgB : Int)
    (catC : Option String) (ppC pgC : Int)
    (etD : Option String) (pageD : Int) (upcD : Bool) (dD1 dD2 : NaiveDate)
    (ccE : Option String) (pageE : Int) (upcE : Bool) (dE1 dE2 : NaiveDate)
    (hvs : ¬ "category=".data <:+: vs.data)
    (hids : ¬ "category=".data <:+: (joinSep "%2C" ids).data)
    (hppA : ¬ "category=".data <:+: (toString ppA).data)
    (hpgA : ¬ "category=".data <:+: (toString pgA).data)
    (hptB : ∀ s, ptB = some s → ¬ "category=".data <:+: s.data)
    (hppB : ¬ "category=".data <:+: (toString ppB).data)
    (hpgB : ¬ "category=".data <:+: (toString pgB).data)
    (hcatC : ∀ s, catC = some s → ¬ "project_type=".data <:+: s.data)
    (hppC : ¬ "project_type=".data <:+: (toString ppC).data)
    (hpgC : ¬ "project_type=".data <:+: (toString pgC).data)
    (hetD : ∀ s, etD = some s → ¬ "country_code=".data <:+: s.data)
    (hpageD : ¬ "country_code=".data <:+: (toString pageD).data)
    (hdD1 : ¬ "country_code=".data <:+: (formatDate "%Y-%m-%d".data dD1).data)
    (hdD2 : ¬ "country_code=".data <:+: (formatDate "%Y-%m-%d".data dD2).data)
    (hccE : ∀ s, ccE = some s → ¬ "type=".data <:+: s.data)
    (hpageE : ¬ "type=".data <:+: (toString pageE).data)
    (hdE1 : ¬ "type=".data <:+: (formatDate "%Y-%m-%d".data dE1).data)
    (hdE2 : ¬ "type=".data <:+: (formatDate "%Y-%m-%d".data dE2).data) :
    ¬ "category=".data <:+: (coinsMarketsParams vs ids none ordr ppA pgA sp pcp).data ∧
      ¬ "category=".data <:+: (statusUpdatesParams none ptB ppB pgB).data ∧
      ¬ "project_type=".data <:+: (statusUpdatesParams catC none ppC pgC).data ∧
      ¬ "country_code=".data <:+: (eventsParams none etD pageD upcD dD1 dD2).data ∧
      ¬ "type=".data <:+: (eventsParams ccE none pageE upcE dE1 dE2).data := by
  refine ⟨?_, ?_, ?_, ?_, ?_⟩
  · simp only [coinsMarketsParams, String.data_append, List.append_assoc, List.nil_append]
    refine step_lit (by decide) (by decide) ?_
    refine step_abs rfl hvs (by decide) ?_
    refine step_lit (by decide) (by decide) ?_
    refine step_abs rfl hids (by decide) ?_
    refine step_lit (by decide) (by decide) ?_
    refine step_abs rfl (order_no_category ordr) (by decide) ?_
    refine step_lit (by decide) (by decide) ?_
    refine step_abs rfl hppA (by decide) ?_
    refine step_lit (by decide) (by decide) ?_
    refine step_abs rfl hpgA (by decide) ?_
    refine step_lit (by decide) (by decide) ?_
    refine step_abs rfl (by cases sp <;> decide) (by decide) ?_
    refine step_lit (by decide) (by decide) ?_
    exact pcp_no_category pcp
  · cases ptB with
    | none =>
      simp only [statusUpdatesParams, statusUpdatesFrags, joinSep, String.data_append,
        List.append_assoc, List.nil_append]
      refine step_lit (by decide) (by decide) ?_
      refine step_abs rfl hppB (by decide) ?_
      refine step_lit (by decide) (by decide) ?_
      exact hpgB
    | some t =>
      simp only [statusUpdatesParams, statusUpdatesFrags, joinSep, String.data_append,
        List.append_assoc, List.nil_append]
      refine step_lit (by decide) (by decide) ?_
      refine step_lit (by decide) (by decide) ?_
      refine step_abs rfl (hptB t rfl) (by decide) ?_
      refine step_lit (by decide) (by decide) ?_
      refine step_abs rfl hppB (by decide) ?_
      refine step_lit (by decide) (by decide) ?_
      exact hpgB
  · cases catC with
    | none =>
      simp only [statusUpdatesParams, statusUpdatesFrags, joinSep, String.data_append,
        List.append_assoc, List.nil_append]
      refine step_lit (by decide) (by decide) ?_
      refine step_abs rfl hppC (by decide) ?_
      refine step_lit (by decide) (by decide) ?_
      exact hpgC
    | some c2 =>
      simp only [statusUpdatesParams, statusUpdatesFrags, joinSep, String.data_append,
        List.append_assoc, List.nil_append]
      refine step_lit (by decide) (by decide) ?_
      refine step_lit (by decide) (by decide) ?_
      refine step_abs rfl (hcatC c2 rfl) (by decide) ?_
      refine step_lit (by decide) (by decide) ?_
      refine step_abs rfl hppC (by decide) ?_
      refine step_lit (by decide) (by decide) ?_
      exact hpgC
  · cases etD with
    | none =>
      simp only [eventsParams, eventsFrags, joinSep, String.data_append,
        List.append_assoc, List.nil_append]
      refine step_lit (by decide) (by decide) ?_
      refine step_lit (by decide) (by decide) ?_
      refine step_abs rfl hpageD (by decide) ?_
      refine step_lit (by decide) (by decide) ?_
      refine step_abs rfl (by cases upcD <;> decide) (by decide) ?_
      refine step_lit (by decide) (by decide) ?_
      refine step_abs rfl hdD1 (by decide) ?_
      refine step_lit (by decide) (by decide) ?_
      exact hdD2
    | some t =>
      simp only [eventsParams, eventsFrags, joinSep, String.data_append,
        List.append_assoc, List.nil_append]
      refine step_lit (by decide) (by decide) ?_
      refine step_lit (by decide) (by decide) ?_
      refine step_abs rfl (hetD t rfl) (by decide) ?_
      refine step_lit (by decide) (by decide) ?_
      refine step_abs rfl hpageD (by decide) ?_
      refine step_lit (by decide) (by decide) ?_
      refine step_abs rfl (by cases upcD <;> decide) (by decide) ?_
      refine step_lit (by decide) (by decide) ?_
      refine step_abs rfl hdD1 (by decide) ?_
      refine step_lit (by decide) (by decide) ?_
      exact hdD2
  · cases ccE with
    | none =>
      simp only [eventsParams, eventsFrags, joinSep, String.data_append,
        List.append_assoc, List.nil_append]
      refine step_lit (by decide) (by decide) ?_
      refine step_lit (by decide) (by decide) ?_
      refine step_abs rfl hpageE (by decide) ?_
      refine step_lit (by decide) (by decide) ?_
      refine step_abs rfl (by cases upcE <;> decide) (by decide) ?_
      refine step_lit (by decide) (by decide) ?_
      refine step_abs rfl hdE1 (by decide) ?_
      refine step_lit (by decide) (by decide) ?_
      exact hdE2
    | some c2 =>
      simp only [eventsParams, eventsFrags, joinSep, String.data_append,
        List.append_assoc, List.nil_append]
      refine step_lit (by decide) (by decide) ?_
      refine step_lit (by decide) (by decide) ?_
      refine step_abs rfl (hccE c2 rfl) (by decide) ?_
      refine step_lit (by decide) (by decide) ?_
      refine step_abs rfl hpageE (by decide) ?_
      refine step_lit (by decide) (by decide) ?_
      refine step_abs rfl (by cases upcE <;> decide) (by decide) ?_
      refine step_lit (by decide) (by decide) ?_
      refine step_abs rfl hdE1 (by decide) ?_
      refine step_lit (by decide) (by decide) ?_
      exact hdE2

/-- C8 witness: the amended statement evaluated on the concrete example
calls of the library's documentation. -/
theorem claim_C8_witness :
    ¬ "category=".data <:+:
        (coinsMarketsParams "usd" ["bitcoin"] none .MarketCapDesc 250 1 true [.OneHour]).data ∧
      ¬ "category=".data <:+: (statusUpdatesParams none (some "coin") 10 1).data ∧
      ¬ "project_type=".data <:+: (statusUpdatesParams (some "general") none 10 1).data ∧
      ¬ "country_code=".data <:+:
        (eventsParams none (some "Event") 1 true ⟨2021, 10, 7⟩ ⟨2022, 10, 7⟩).data ∧
      ¬ "type=".data <:+:
        (eventsParams (some "HK") none 1 true ⟨2021, 10, 7⟩ ⟨2022, 10, 7⟩).data :=
  claim_C8 "usd" ["bitcoin"] .MarketCapDesc 250 1 true [.OneHour]
    (some "coin") 10 1 (some "general") 10 1
    (some "Event") 1 true ⟨2021, 10, 7⟩ ⟨2022, 10, 7⟩
    (some "HK") 1 true ⟨2021, 10, 7⟩ ⟨2022, 10, 7⟩
    (by decide) (by decide) (by decide) (by decide)
    (by intro s hs; injection hs with h; subst h; decide) (by decide) (by decide)
    (by intro s hs; injection hs with h; subst h; decide) (by decide) (by decide)
    (by intro s hs; injection hs with h; subst h; decide) (by decide) (by decide) (by decide)
    (by intro s hs; injection hs with h; subst h; decide) (by decide) (by decide) (by decide)

end Coingecko
